import Mathlib

/-!
Shallow embedding of the watchlist-plans-goals PWA client logic.

Sources:
- src/src/pages/PlansPage.tsx   (PlansPage component and RoulettePage component)
- src/src/pages/LoginPage.tsx   (LoginPage component)
- src/unnamed/part_000          (WatchlistPage and GoalsPage components)

TypeScript union types become inductives, optional fields become Option,
JavaScript numbers that the claims use only at integer values become Int,
and the Math.random driven index draws of the roulette are modelled as an
ambient stream of natural numbers, one per call, each assumed to lie below
the pool length exactly as Math.floor of Math.random times the length does
for a non-empty pool.
-/

namespace WatchApp

/-! ### Plans page: data model (PlansPage.tsx lines 16-42) -/

/-- Source: type PlanStatus = "idea" | "planned" | "done". -/
inductive PlanStatus
  | idea
  | planned
  | done
deriving DecidableEq, Repr

/-- Source: type Plan (PlansPage.tsx lines 18-36); audit and timestamp fields
that no claim inspects are omitted, the fields the claims read are kept. -/
structure Plan where
  id : String
  title : String
  description : Option String := none
  links : List String := []
  status : PlanStatus
  sort : Int := 0
deriving DecidableEq, Repr

namespace Plans

/-- Result shape of the grouped memo: one bucket per PlanStatus key
(PlansPage.tsx line 85, the Record over the three statuses). -/
structure GroupedPlans where
  idea : List Plan
  planned : List Plan
  done : List Plan
deriving DecidableEq, Repr

/-- One step of the loop body: map of p.status gets p pushed at its end
(PlansPage.tsx line 86). -/
def pushPlan (m : GroupedPlans) (p : Plan) : GroupedPlans :=
  match p.status with
  | .idea => { m with idea := m.idea ++ [p] }
  | .planned => { m with planned := m.planned ++ [p] }
  | .done => { m with done := m.done ++ [p] }

/-- Source: the grouped useMemo of PlansPage.tsx lines 84-88: start from three
empty buckets and push every plan onto the bucket of its status, in order. -/
def grouped (plans : List Plan) : GroupedPlans :=
  plans.foldl pushPlan ⟨[], [], []⟩

/-- Bucket lookup by status key, as the board columns read grouped at col.key
(PlansPage.tsx line 276). -/
def GroupedPlans.bucket (m : GroupedPlans) : PlanStatus → List Plan
  | .idea => m.idea
  | .planned => m.planned
  | .done => m.done

end Plans

/-! ### Watchlist page: data model (part_000 lines 24-46) -/

/-- Source: type Status = "pending" | "watching" | "done" (part_000 line 24). -/
inductive WStatus
  | pending
  | watching
  | done
deriving DecidableEq, Repr

/-- Source: type TmdbMediaType = "movie" | "tv" (part_002). -/
inductive TmdbMediaType
  | movie
  | tv
deriving DecidableEq, Repr

/-- Firestore timestamp as the watchlist sort reads it: only the seconds field
is consulted (part_000 lines 91-92). -/
structure Timestamp where
  seconds : Int
deriving DecidableEq, Repr

/-- Source: type WatchItem (part_000 lines 26-46); audit fields that no claim
inspects are omitted. createdAt is optional, matching the a?.createdAt guard. -/
structure WatchItem where
  id : String
  tmdbId : Int
  mediaType : TmdbMediaType
  title : String
  posterPath : Option String := none
  status : WStatus
  season : Option Int := none
  episode : Option Int := none
  createdAt : Option Timestamp := none
deriving DecidableEq, Repr

namespace Watchlist

/-- Sort key of the snapshot handler: a?.createdAt?.seconds ?? 0
(part_000 lines 91-92). -/
def createdKey (w : WatchItem) : Int :=
  (w.createdAt.map Timestamp.seconds).getD 0

/-- Comparator of part_000 line 93, return tb - ta: item a precedes item b
exactly when the key of b is at most the key of a (descending by createdAt
seconds). The JavaScript Array sort is modelled by a merge sort under that
Boolean order. -/
def sortByCreatedDesc (items : List WatchItem) : List WatchItem :=
  items.mergeSort (fun a b => createdKey b ≤ createdKey a)

/-- Source: the pending useMemo, items.filter status equals pending
(part_000 lines 225-228). -/
def pending (items : List WatchItem) : List WatchItem :=
  items.filter (fun i => i.status = WStatus.pending)

/-- Source: the watching useMemo, items.filter status equals watching
(part_000 lines 229-232). -/
def watching (items : List WatchItem) : List WatchItem :=
  items.filter (fun i => i.status = WStatus.watching)

/-- Source: the done useMemo, items.filter status equals done
(part_000 line 233). -/
def doneItems (items : List WatchItem) : List WatchItem :=
  items.filter (fun i => i.status = WStatus.done)

end Watchlist

/-! ### Roulette page (RoulettePage component in PlansPage.tsx, lines 484-988) -/

/-- Source: type Candidate (PlansPage.tsx lines 516-535), a union of a plan
view and a watch view. -/
inductive Candidate
  | plan (id : String) (title : String) (subtitle : Option String)
      (links : List String) (status : PlanStatus)
  | watch (id : String) (title : String) (subtitle : Option String)
      (posterPath : Option String) (mediaType : TmdbMediaType)
      (status : WStatus) (season : Option Int) (episode : Option Int)
deriving DecidableEq, Repr

namespace Roulette

/-- The four pieces of RoulettePage component state that spin touches
(PlansPage.tsx lines 549-552): spinning, highlight, winner, err. -/
structure RouletteState where
  spinning : Bool
  highlight : Option Candidate
  winner : Option Candidate
  err : Option String
deriving DecidableEq, Repr

/-- Source: const steps = Math.min(36, Math.max(18, pool.length + 12))
(PlansPage.tsx line 677). -/
def steps (n : Nat) : Nat :=
  min 36 (max 18 (n + 12))

/-- The seq array built by the loop of PlansPage.tsx lines 678-682: steps - 1
pseudo-random picks from the pool followed by the real winner. Call number
k of Math.floor of Math.random times pool.length is modelled by idx k; a
value that would fall outside the pool (impossible for the real generator on
a non-empty pool) is dropped by the Option-aware indexing. Pick number 0 was
consumed by the winner draw, so the loop uses picks 1, 2, and so on. -/
def animSeq (pool : List Candidate) (idx : Nat → Nat) (final : Candidate) :
    List Candidate :=
  ((List.range (steps pool.length - 1)).filterMap fun i => pool[idx (i + 1)]?)
    ++ [final]

/-- Everything the spin call determines: the state right after the
synchronous body returns, the highlight sequence handed to the timers, and
the winner that the closing timer will install. -/
structure SpinResult where
  state : RouletteState
  scheduled : List Candidate
  finalWinner : Option Candidate
deriving DecidableEq, Repr

/-- Source: function spin (PlansPage.tsx lines 660-707). Guard on spinning,
clear err and winner, bail out with an error message on an empty pool,
otherwise draw the real winner pool at the floor of random times length
(modelled by pick idx 0), build the animation sequence, and schedule the
timers; the synchronous body never touches highlight. -/
def spin (s : RouletteState) (pool : List Candidate) (idx : Nat → Nat) :
    SpinResult :=
  if s.spinning then ⟨s, [], none⟩
  else
    let s1 : RouletteState := { s with err := none, winner := none }
    if pool.length = 0 then
      ⟨{ s1 with
          err := some "No hay nada para elegir con la configuración actual." },
        [], none⟩
    else
      match pool[idx 0]? with
      | none => ⟨{ s1 with spinning := true }, [], none⟩
      | some final =>
          ⟨{ s1 with spinning := true }, animSeq pool idx final, some final⟩

/-- State after every scheduled timer has fired: the highlight steps through
the scheduled list (so it ends on its last element), then the closing timer
of PlansPage.tsx lines 700-704 sets winner and highlight to the real winner
and clears spinning. -/
def afterTimers (r : SpinResult) : RouletteState :=
  match r.finalWinner with
  | none => r.state
  | some final =>
      { r.state with
          winner := some final, highlight := some final, spinning := false }

end Roulette

/-! ### Goals page: data model and progress normalization
(part_000 lines 910-1422) -/

/-- Source: type GoalStatus = "active" | "done" | "paused"
(part_000 line 927). -/
inductive GoalStatus
  | active
  | done
  | paused
deriving DecidableEq, Repr

/-- Source: type ChecklistItem (part_000 line 930). -/
structure ChecklistItem where
  id : String
  text : String
  done : Bool
deriving DecidableEq, Repr

/-- Money sub-record of GoalProgress (part_000 line 934); the currency field
is kept because the normalization always writes the string COP into it. -/
structure MoneyProgress where
  currency : String
  targetAmount : Int
  currentAmount : Int
deriving DecidableEq, Repr

/-- Checklist sub-record of GoalProgress (part_000 line 933). -/
structure ChecklistProgress where
  items : List ChecklistItem
deriving DecidableEq, Repr

/-- Source: type GoalProgress (part_000 lines 932-935), both sub-records
optional. -/
structure GoalProgress where
  checklist : Option ChecklistProgress := none
  money : Option MoneyProgress := none
deriving DecidableEq, Repr

/-- Source: type Goal (part_000 lines 937-957); audit fields that no claim
inspects are omitted. -/
structure Goal where
  id : String
  title : String
  description : Option String := none
  status : GoalStatus
  progress : GoalProgress := {}
  order : Int := 0
deriving DecidableEq, Repr

namespace Goals

/-- Source: function safeNumber (part_000 lines 963-966). A raw Firestore
value is modelled as some n when it is (or coerces to) a finite number n and
none otherwise, so safeNumber returns the number itself or the fallback. -/
def safeNumber (v : Option Int) (fallback : Int := 0) : Int :=
  v.getD fallback

/-- Shape of the raw progress field of a goal document as the snapshot
normalization of part_000 lines 1144-1191 reads it: an optional mode string,
the legacy top-level targetAmount, currentAmount and items fields, and the
new-format money and checklist sub-objects. A field holds none when it is
absent, null, or (for items) not an array. -/
structure RawMoney where
  targetAmount : Option Int := none
  currentAmount : Option Int := none
deriving DecidableEq, Repr

/-- New-format raw checklist sub-object; items is none when the stored items
field is not an array (the Array.isArray guard of part_000 line 1181). -/
structure RawChecklist where
  items : Option (List ChecklistItem) := none
deriving DecidableEq, Repr

/-- Raw progress document field; see part_000 lines 1145-1186 for every
field read from it. -/
structure RawProgress where
  mode : Option String := none
  targetAmount : Option Int := none
  currentAmount : Option Int := none
  items : Option (List ChecklistItem) := none
  money : Option RawMoney := none
  checklist : Option RawChecklist := none
deriving DecidableEq, Repr

/-- Source: the compat normalization inside the goals onSnapshot handler
(part_000 lines 1147-1191). Legacy mode money clamps both amounts with
Math.max of 0 and safeNumber and stamps currency COP; legacy mode checklist
keeps the items array or defaults to the empty one; the new format converts
whichever sub-objects are present the same way; and if neither sub-record
ended up populated the progress defaults to an empty checklist. -/
def normalizeProgressCore (rawProgress : RawProgress) : GoalProgress :=
  if rawProgress.mode = some "money" then
    { money := some
        { currency := "COP"
          targetAmount := max 0 (safeNumber rawProgress.targetAmount 0)
          currentAmount := max 0 (safeNumber rawProgress.currentAmount 0) }
      checklist := none }
  else if rawProgress.mode = some "checklist" then
    { money := none
      checklist := some { items := rawProgress.items.getD [] } }
  else
    { money := rawProgress.money.map fun m =>
        { currency := "COP"
          targetAmount := max 0 (safeNumber m.targetAmount 0)
          currentAmount := max 0 (safeNumber m.currentAmount 0) }
      checklist := rawProgress.checklist.map fun c =>
        { items := c.items.getD [] } }

/-- The default-seguro step of part_000 lines 1189-1191: if neither
sub-record got populated, progress becomes an empty checklist. -/
def normalizeProgress (rawProgress : RawProgress) : GoalProgress :=
  let progress := normalizeProgressCore rawProgress
  if progress.money = none ∧ progress.checklist = none then
    { checklist := some { items := [] }, money := none }
  else
    progress

/-- Source: data.progress ?? an empty object (part_000 line 1145), feeding
the normalization; the whole progress field may be missing from a document. -/
def readProgress (p : Option RawProgress) : GoalProgress :=
  normalizeProgress (p.getD {})

/-- Source: the grouped useMemo of GoalsPage (part_000 lines 1417-1422),
three filters by status. -/
structure GroupedGoals where
  active : List Goal
  paused : List Goal
  done : List Goal
deriving DecidableEq, Repr

/-- Source: part_000 lines 1417-1422. -/
def grouped (goals : List Goal) : GroupedGoals :=
  { active := goals.filter (fun g => g.status = GoalStatus.active)
    paused := goals.filter (fun g => g.status = GoalStatus.paused)
    done := goals.filter (fun g => g.status = GoalStatus.done) }

/-- Bucket lookup by status key for the goals board. -/
def GroupedGoals.bucket (m : GroupedGoals) : GoalStatus → List Goal
  | .active => m.active
  | .paused => m.paused
  | .done => m.done

end Goals

/-! ### Update payloads: patchPlan (PlansPage.tsx lines 130-147) and
setStatus (part_000 lines 196-208) -/

/-- Firestore field values that the update payloads of this app carry:
strings, integers, null, the serverTimestamp sentinel, and string arrays. -/
inductive FsValue
  | str (v : String)
  | num (v : Int)
  | nil
  | timestamp
  | strList (v : List String)
deriving DecidableEq, Repr

/-- The authenticated user object as the pages read it: uid, email and
displayName, with none standing for null. -/
structure UserInfo where
  uid : String
  email : Option String := none
  displayName : Option String := none
deriving DecidableEq, Repr

/-- Source: const nameFromEmail (PlansPage.tsx lines 44-45 and part_000
lines 51-52): email truthy gives the part before the at sign, otherwise
null; the empty string is falsy in JavaScript. -/
def nameFromEmail (email : Option String) : Option String :=
  match email with
  | some e => if e = "" then none else some ((e.splitOn "@").headD "")
  | none => none

/-- Source: user.displayName or nameFromEmail of user.email (PlansPage.tsx
line 138, part_000 line 199): the JavaScript or-operator falls through on a
null or empty displayName. -/
def displayOrEmailName (u : UserInfo) : Option String :=
  match u.displayName with
  | some d => if d = "" then nameFromEmail u.email else some d
  | none => nameFromEmail u.email

/-- Nullish coalescing of an optional string into a field value, for the
expressions user.email ?? null and updatedName ?? null. -/
def optStr : Option String → FsValue
  | some s => .str s
  | none => .nil

/-- The four audit entries every update payload appends: updatedByUid,
updatedByEmail, updatedByName, updatedAt (PlansPage.tsx lines 142-145,
part_000 lines 203-206). -/
def auditFields (u : UserInfo) : List (String × FsValue) :=
  [("updatedByUid", FsValue.str u.uid),
   ("updatedByEmail", optStr u.email),
   ("updatedByName", optStr (displayOrEmailName u)),
   ("updatedAt", FsValue.timestamp)]

namespace Plans

/-- Source: the cleaning loop of patchPlan (PlansPage.tsx lines 133-136):
walk the entries of the patch object and keep exactly those whose value is
not undefined. A patch entry carries none for an explicit undefined value. -/
def cleaned (patch : List (String × Option FsValue)) : List (String × FsValue) :=
  patch.filterMap fun kv => kv.2.map fun v => (kv.1, v)

/-- Source: the updateDoc argument of patchPlan (PlansPage.tsx lines
140-146): the cleaned patch spread first, then the audit fields. -/
def patchPlanPayload (patch : List (String × Option FsValue)) (u : UserInfo) :
    List (String × FsValue) :=
  cleaned patch ++ auditFields u

end Plans

namespace Watchlist

/-- Status field value as stored in Firestore. -/
def statusName : WStatus → String
  | .pending => "pending"
  | .watching => "watching"
  | .done => "done"

/-- Source: the updateDoc argument of setStatus (part_000 lines 201-207):
the new status plus the audit fields, nothing else. -/
def setStatusPayload (status : WStatus) (u : UserInfo) :
    List (String × FsValue) :=
  ("status", FsValue.str (statusName status)) :: auditFields u

end Watchlist

/-- Modelled from the spec: the backend updateDoc merge semantics are not
code of this repository; per the spec, an update call modifies exactly the
fields named in its payload and leaves every other field of the stored
document untouched, with later payload entries overriding earlier ones. -/
def applyUpdate (d : String → Option FsValue) (upd : List (String × FsValue)) :
    String → Option FsValue :=
  upd.foldl (fun acc kv => fun k => if k = kv.1 then some kv.2 else acc k) d

/-! ### Login page (LoginPage.tsx) -/

namespace Login

/-- Names of the members every plain JavaScript object literal inherits
from Object.prototype, all of which a bracket lookup finds and all of whose
values (functions, and Object.prototype itself for the proto accessor) are
truthy. -/
def objectPrototypeProps : List String :=
  ["constructor", "hasOwnProperty", "isPrototypeOf", "propertyIsEnumerable",
   "toLocaleString", "toString", "valueOf", "__proto__", "__defineGetter__",
   "__defineSetter__", "__lookupGetter__", "__lookupSetter__"]

/-- A truthy value the bracket lookup USER_TO_EMAIL of a key can produce:
one of the two own string entries, or an inherited Object.prototype member
found through the prototype chain. -/
inductive JsProp
  | str (s : String)
  | protoMember (name : String)
deriving DecidableEq, Repr

/-- Source: const USER_TO_EMAIL (LoginPage.tsx lines 7-10) as read by the
bracket lookup of onLogin line 47. A plain object literal lookup first finds
the own entries camilo and diana, but for any other key it walks the
prototype chain and yields the inherited truthy Object.prototype member of
that name when one exists; only the remaining keys give undefined. -/
def USER_TO_EMAIL (u : String) : Option JsProp :=
  if u = "camilo" then some (.str "camilo@prueba.com")
  else if u = "diana" then some (.str "diana@prueba.com")
  else if u ∈ objectPrototypeProps then some (.protoMember u)
  else none

/-- The WhiteSpace and LineTerminator code points String.prototype.trim
strips per ECMA-262: tab, LF, VT, FF, CR, space, NBSP, Ogham space mark,
the en-quad through hair-space range, LS, PS, narrow NBSP, medium
mathematical space, ideographic space, and the BOM. -/
def jsWhitespaceChar (c : Char) : Bool :=
  c.toNat ∈ [0x09, 0x0A, 0x0B, 0x0C, 0x0D, 0x20, 0xA0, 0x1680,
    0x2000, 0x2001, 0x2002, 0x2003, 0x2004, 0x2005, 0x2006, 0x2007,
    0x2008, 0x2009, 0x200A, 0x2028, 0x2029, 0x202F, 0x205F, 0x3000, 0xFEFF]

/-- JavaScript String.prototype.trim modelled over the character list:
the ECMA-262 whitespace class is stripped from both ends. -/
def jsTrim (s : String) : String :=
  ⟨List.reverse (List.dropWhile jsWhitespaceChar
      (List.reverse (List.dropWhile jsWhitespaceChar s.data)))⟩

/-- JavaScript String.prototype.toLowerCase modelled characterwise with
Char.toLower. This lowers exactly the ASCII uppercase letters; the few
non-ASCII lowercase mappings of Unicode never produce a character of the
four all-ASCII strings a login decision can turn on (camilo, diana,
constructor, and the proto accessor name). -/
def jsToLower (s : String) : String :=
  ⟨s.data.map Char.toLower⟩

/-- Source: function normalizeUser (LoginPage.tsx lines 12-14): trim then
lowercase. -/
def normalizeUser (u : String) : String :=
  jsToLower (jsTrim u)

/-- Observable outcome of one onLogin run: either a local validation error
was set with no auth-service call, or signInWithEmailAndPassword was invoked
with the given looked-up email value and password. -/
inductive LoginOutcome
  | localError (msg : String)
  | authAttempt (email : JsProp) (pass : String)
deriving DecidableEq, Repr

/-- Source: the validation prefix of onLogin (LoginPage.tsx lines 46-59):
normalize the username, look it up with the bracket access, take the error
branch only when the result is falsy (undefined), reject an empty password,
and otherwise call the auth service with whatever value the lookup found. -/
def onLogin (username pass : String) : LoginOutcome :=
  let u := normalizeUser username
  match USER_TO_EMAIL u with
  | none => .localError "Usuario no permitido. Usa: camilo o diana."
  | some email =>
      if pass = "" then .localError "Escribe la contraseña."
      else .authAttempt email pass

end Login

end WatchApp


namespace WatchApp

lemma length_filterMap_range {α : Type} (m : Nat) (f : Nat → Option α)
    (h : ∀ i, i < m → (f i).isSome) :
    ((List.range m).filterMap f).length = m := by
  induction m with
  | zero => simp
  | succ n ih =>
      rw [List.range_succ, List.filterMap_append, List.length_append]
      rw [ih (fun i hi => h i (Nat.lt_succ_of_lt hi))]
      obtain ⟨a, ha⟩ := Option.isSome_iff_exists.mp (h n (Nat.lt_succ_self n))
      simp [ha]

lemma spin_eq (s : Roulette.RouletteState) (pool : List Candidate)
    (idx : Nat → Nat) (hspin : s.spinning = false)
    (h0 : idx 0 < pool.length) :
    Roulette.spin s pool idx =
      ⟨{ s with err := none, winner := none, spinning := true },
        Roulette.animSeq pool idx (pool.get ⟨idx 0, h0⟩),
        some (pool.get ⟨idx 0, h0⟩)⟩ := by
  have hlen : ¬ pool.length = 0 := by omega
  have hg : pool[idx 0]? = some (pool.get ⟨idx 0, h0⟩) :=
    List.getElem?_eq_getElem h0
  simp [Roulette.spin, hspin, hlen, hg]

lemma animSeq_length (pool : List Candidate) (idx : Nat → Nat)
    (final : Candidate) (hidx : ∀ k, idx k < pool.length) :
    (Roulette.animSeq pool idx final).length = Roulette.steps pool.length := by
  rw [Roulette.animSeq, List.length_append]
  rw [length_filterMap_range]
  · simp [Roulette.steps]
  · intro i hi
    simp [List.getElem?_eq_getElem (hidx (i + 1))]

/-- C1: a roulette spin over a non-empty pool always determines a winner
that is a member of the pool, and the generated animation sequence is
non-empty with its last element equal to that winner (who is also the
winner installed by the closing timer). -/
theorem spin_winner_mem_pool_anim_ends_on_winner
    (s : Roulette.RouletteState) (pool : List Candidate) (idx : Nat → Nat)
    (hspin : s.spinning = false) (hne : pool ≠ [])
    (hidx : ∀ k, idx k < pool.length) :
    ∃ final : Candidate,
      (Roulette.spin s pool idx).finalWinner = some final ∧
      final ∈ pool ∧
      (Roulette.spin s pool idx).scheduled ≠ [] ∧
      (Roulette.spin s pool idx).scheduled.getLast? = some final ∧
      (Roulette.afterTimers (Roulette.spin s pool idx)).winner = some final := by
  have h0 : idx 0 < pool.length := hidx 0
  rw [spin_eq s pool idx hspin h0]
  refine ⟨pool.get ⟨idx 0, h0⟩, rfl, List.get_mem pool _ h0, ?_, ?_, ?_⟩
  · simp [Roulette.animSeq]
  · show (Roulette.animSeq pool idx _).getLast? = _
    rw [Roulette.animSeq, List.getLast?_concat]
  · simp [Roulette.afterTimers]

/-- C1 witness: a concrete one-element pool draw. -/
theorem spin_winner_mem_pool_anim_ends_on_winner_witness :
    ∃ final : Candidate,
      (Roulette.spin ⟨false, none, none, none⟩
          [Candidate.plan "p1" "Cine" none [] PlanStatus.idea]
          (fun _ => 0)).finalWinner = some final ∧
      final ∈ [Candidate.plan "p1" "Cine" none [] PlanStatus.idea] ∧
      (Roulette.spin ⟨false, none, none, none⟩
          [Candidate.plan "p1" "Cine" none [] PlanStatus.idea]
          (fun _ => 0)).scheduled ≠ [] ∧
      (Roulette.spin ⟨false, none, none, none⟩
          [Candidate.plan "p1" "Cine" none [] PlanStatus.idea]
          (fun _ => 0)).scheduled.getLast? = some final ∧
      (Roulette.afterTimers (Roulette.spin ⟨false, none, none, none⟩
          [Candidate.plan "p1" "Cine" none [] PlanStatus.idea]
          (fun _ => 0))).winner = some final :=
  spin_winner_mem_pool_anim_ends_on_winner ⟨false, none, none, none⟩
    [Candidate.plan "p1" "Cine" none [] PlanStatus.idea] (fun _ => 0)
    rfl (by decide) (fun _ => Nat.zero_lt_one)

/-- C7: the animation sequence of a spin over a non-empty pool of size N has
length min 36 (max 18 (N + 12)), hence always between 18 and 36. -/
theorem spin_anim_length_formula
    (s : Roulette.RouletteState) (pool : List Candidate) (idx : Nat → Nat)
    (hspin : s.spinning = false) (hne : pool ≠ [])
    (hidx : ∀ k, idx k < pool.length) :
    (Roulette.spin s pool idx).scheduled.length =
      min 36 (max 18 (pool.length + 12)) ∧
    18 ≤ (Roulette.spin s pool idx).scheduled.length ∧
    (Roulette.spin s pool idx).scheduled.length ≤ 36 := by
  have h0 : idx 0 < pool.length := hidx 0
  rw [spin_eq s pool idx hspin h0]
  show (Roulette.animSeq pool idx _).length = _ ∧
    18 ≤ (Roulette.animSeq pool idx _).length ∧
    (Roulette.animSeq pool idx _).length ≤ 36
  rw [animSeq_length pool idx _ hidx]
  refine ⟨rfl, ?_, ?_⟩ <;> · rw [Roulette.steps]; omega

/-- C7 witness: a concrete two-element pool gives an 18 step animation. -/
theorem spin_anim_length_formula_witness :
    (Roulette.spin ⟨false, none, none, none⟩
        [Candidate.plan "p1" "Cine" none [] PlanStatus.idea,
          Candidate.plan "p2" "Parque" none [] PlanStatus.planned]
        (fun k => k % 2)).scheduled.length = min 36 (max 18 (2 + 12)) ∧
    18 ≤ (Roulette.spin ⟨false, none, none, none⟩
        [Candidate.plan "p1" "Cine" none [] PlanStatus.idea,
          Candidate.plan "p2" "Parque" none [] PlanStatus.planned]
        (fun k => k % 2)).scheduled.length ∧
    (Roulette.spin ⟨false, none, none, none⟩
        [Candidate.plan "p1" "Cine" none [] PlanStatus.idea,
          Candidate.plan "p2" "Parque" none [] PlanStatus.planned]
        (fun k => k % 2)).scheduled.length ≤ 36 :=
  spin_anim_length_formula ⟨false, none, none, none⟩
    [Candidate.plan "p1" "Cine" none [] PlanStatus.idea,
      Candidate.plan "p2" "Parque" none [] PlanStatus.planned]
    (fun k => k % 2) rfl (by decide) (fun k => Nat.mod_lt k (by decide))

/-- C4 counterexample: spinning an empty pool with a previously set winner
does set the error message, but it also clears the winner to none rather
than leaving it unchanged, refuting the claim as stated. -/
theorem spin_empty_pool_winner_cleared_counterexample :
    ((Roulette.spin
        ⟨false, some (Candidate.plan "p1" "Cine" none [] PlanStatus.idea),
          some (Candidate.plan "p1" "Cine" none [] PlanStatus.idea), none⟩
        [] (fun _ => 0)).state.err =
      some "No hay nada para elegir con la configuración actual.") ∧
    (Roulette.spin
        ⟨false, some (Candidate.plan "p1" "Cine" none [] PlanStatus.idea),
          some (Candidate.plan "p1" "Cine" none [] PlanStatus.idea), none⟩
        [] (fun _ => 0)).state.winner ≠
      (⟨false, some (Candidate.plan "p1" "Cine" none [] PlanStatus.idea),
          some (Candidate.plan "p1" "Cine" none [] PlanStatus.idea), none⟩ :
        Roulette.RouletteState).winner := by
  decide

/-- C4 amended: a spin invoked while not already spinning on an empty pool
sets the error state, clears the winner to none, leaves the highlight
unchanged, stays not spinning, and schedules nothing. -/
theorem spin_empty_pool_sets_error
    (s : Roulette.RouletteState) (idx : Nat → Nat)
    (hspin : s.spinning = false) :
    (Roulette.spin s [] idx).state.err =
      some "No hay nada para elegir con la configuración actual." ∧
    (Roulette.spin s [] idx).state.winner = none ∧
    (Roulette.spin s [] idx).state.highlight = s.highlight ∧
    (Roulette.spin s [] idx).state.spinning = false ∧
    (Roulette.spin s [] idx).scheduled = [] ∧
    (Roulette.spin s [] idx).finalWinner = none := by
  simp [Roulette.spin, hspin]

/-- C4 witness: the amended empty-pool behaviour at a concrete state. -/
theorem spin_empty_pool_sets_error_witness :
    (Roulette.spin ⟨false, some (Candidate.plan "p1" "Cine" none []
        PlanStatus.idea), none, none⟩ [] (fun _ => 0)).state.err =
      some "No hay nada para elegir con la configuración actual." ∧
    (Roulette.spin ⟨false, some (Candidate.plan "p1" "Cine" none []
        PlanStatus.idea), none, none⟩ [] (fun _ => 0)).state.winner = none ∧
    (Roulette.spin ⟨false, some (Candidate.plan "p1" "Cine" none []
        PlanStatus.idea), none, none⟩ [] (fun _ => 0)).state.highlight =
      (⟨false, some (Candidate.plan "p1" "Cine" none [] PlanStatus.idea),
        none, none⟩ : Roulette.RouletteState).highlight ∧
    (Roulette.spin ⟨false, some (Candidate.plan "p1" "Cine" none []
        PlanStatus.idea), none, none⟩ [] (fun _ => 0)).state.spinning = false ∧
    (Roulette.spin ⟨false, some (Candidate.plan "p1" "Cine" none []
        PlanStatus.idea), none, none⟩ [] (fun _ => 0)).scheduled = [] ∧
    (Roulette.spin ⟨false, some (Candidate.plan "p1" "Cine" none []
        PlanStatus.idea), none, none⟩ [] (fun _ => 0)).finalWinner = none :=
  spin_empty_pool_sets_error
    ⟨false, some (Candidate.plan "p1" "Cine" none [] PlanStatus.idea),
      none, none⟩ (fun _ => 0) rfl

end WatchApp


namespace WatchApp

lemma foldl_pushPlan_eq (plans : List Plan) (acc : Plans.GroupedPlans) :
    plans.foldl Plans.pushPlan acc =
      ⟨acc.idea ++ plans.filter (fun p => p.status = PlanStatus.idea),
        acc.planned ++ plans.filter (fun p => p.status = PlanStatus.planned),
        acc.done ++ plans.filter (fun p => p.status = PlanStatus.done)⟩ := by
  induction plans generalizing acc with
  | nil => simp
  | cons p rest ih =>
      rw [List.foldl_cons, ih]
      rcases hst : p.status <;>
        simp [Plans.pushPlan, hst, List.filter_cons]

lemma length_filter_three {α σ : Type} [DecidableEq σ] (f : α → σ)
    (a b c : σ) (hab : a ≠ b) (hac : a ≠ c) (hbc : b ≠ c) (l : List α)
    (hmem : ∀ x ∈ l, f x = a ∨ f x = b ∨ f x = c) :
    (l.filter fun x => f x = a).length + (l.filter fun x => f x = b).length +
      (l.filter fun x => f x = c).length = l.length := by
  induction l with
  | nil => simp
  | cons x rest ih =>
      have hx := hmem x (List.mem_cons_self x rest)
      have hrest := ih fun y hy => hmem y (List.mem_cons_of_mem x hy)
      rcases hx with h | h | h <;>
        simp [List.filter_cons, h, hab, hac, hbc, Ne.symm hab, Ne.symm hac,
          Ne.symm hbc] <;> omega

lemma grouped_eq (plans : List Plan) :
    Plans.grouped plans =
      ⟨plans.filter (fun p => p.status = PlanStatus.idea),
        plans.filter (fun p => p.status = PlanStatus.planned),
        plans.filter (fun p => p.status = PlanStatus.done)⟩ := by
  rw [Plans.grouped, foldl_pushPlan_eq]
  simp

/-- C2: on each of the three List Mirror pages, the derived status grouping
partitions the snapshot exactly: each bucket is the status filter of the
snapshot, every item lies in exactly the bucket of its own status, and the
bucket sizes sum to the snapshot size. -/
theorem grouped_buckets_partition_snapshot :
    (∀ plans : List Plan,
      (Plans.grouped plans).idea =
          plans.filter (fun p => p.status = PlanStatus.idea) ∧
      (Plans.grouped plans).planned =
          plans.filter (fun p => p.status = PlanStatus.planned) ∧
      (Plans.grouped plans).done =
          plans.filter (fun p => p.status = PlanStatus.done) ∧
      (∀ p ∈ plans, ∀ st, p ∈ (Plans.grouped plans).bucket st ↔ p.status = st) ∧
      (Plans.grouped plans).idea.length + (Plans.grouped plans).planned.length +
          (Plans.grouped plans).done.length = plans.length) ∧
    (∀ goals : List Goal,
      (Goals.grouped goals).active =
          goals.filter (fun g => g.status = GoalStatus.active) ∧
      (Goals.grouped goals).paused =
          goals.filter (fun g => g.status = GoalStatus.paused) ∧
      (Goals.grouped goals).done =
          goals.filter (fun g => g.status = GoalStatus.done) ∧
      (∀ g ∈ goals, ∀ st, g ∈ (Goals.grouped goals).bucket st ↔ g.status = st) ∧
      (Goals.grouped goals).active.length + (Goals.grouped goals).paused.length +
          (Goals.grouped goals).done.length = goals.length) ∧
    (∀ items : List WatchItem,
      (∀ i ∈ items,
        (i ∈ Watchlist.pending items ↔ i.status = WStatus.pending) ∧
        (i ∈ Watchlist.watching items ↔ i.status = WStatus.watching) ∧
        (i ∈ Watchlist.doneItems items ↔ i.status = WStatus.done)) ∧
      (Watchlist.pending items).length + (Watchlist.watching items).length +
          (Watchlist.doneItems items).length = items.length) := by
  refine ⟨?_, ?_, ?_⟩
  · intro plans
    rw [grouped_eq]
    refine ⟨rfl, rfl, rfl, ?_, ?_⟩
    · intro p hp st
      rcases st <;> simp [Plans.GroupedPlans.bucket, List.mem_filter, hp]
    · exact length_filter_three Plan.status PlanStatus.idea PlanStatus.planned
        PlanStatus.done (by decide) (by decide) (by decide) plans
        (fun p _ => by rcases p.status <;> simp)
  · intro goals
    refine ⟨rfl, rfl, rfl, ?_, ?_⟩
    · intro g hg st
      rcases st <;>
        simp [Goals.grouped, Goals.GroupedGoals.bucket, List.mem_filter, hg]
    · exact length_filter_three Goal.status GoalStatus.active GoalStatus.paused
        GoalStatus.done (by decide) (by decide) (by decide) goals
        (fun g _ => by rcases g.status <;> simp)
  · intro items
    refine ⟨?_, ?_⟩
    · intro i hi
      refine ⟨?_, ?_, ?_⟩ <;>
        simp [Watchlist.pending, Watchlist.watching, Watchlist.doneItems,
          List.mem_filter, hi]
    · exact length_filter_three WatchItem.status WStatus.pending
        WStatus.watching WStatus.done (by decide) (by decide) (by decide) items
        (fun i _ => by rcases i.status <;> simp)

/-- C2 witness: the partition facts instantiated on a concrete two-plan
snapshot. -/
theorem grouped_buckets_partition_snapshot_witness :
    (Plans.grouped [⟨"a", "Cine", none, [], PlanStatus.idea, 0⟩,
        ⟨"b", "Viaje", none, [], PlanStatus.done, 1⟩]).idea.length +
      (Plans.grouped [⟨"a", "Cine", none, [], PlanStatus.idea, 0⟩,
        ⟨"b", "Viaje", none, [], PlanStatus.done, 1⟩]).planned.length +
      (Plans.grouped [⟨"a", "Cine", none, [], PlanStatus.idea, 0⟩,
        ⟨"b", "Viaje", none, [], PlanStatus.done, 1⟩]).done.length = 2 ∧
    ((⟨"a", "Cine", none, [], PlanStatus.idea, 0⟩ : Plan) ∈
        (Plans.grouped [⟨"a", "Cine", none, [], PlanStatus.idea, 0⟩,
          ⟨"b", "Viaje", none, [], PlanStatus.done, 1⟩]).bucket PlanStatus.idea ↔
      (⟨"a", "Cine", none, [], PlanStatus.idea, 0⟩ : Plan).status =
        PlanStatus.idea) :=
  ⟨(grouped_buckets_partition_snapshot.1
      [⟨"a", "Cine", none, [], PlanStatus.idea, 0⟩,
        ⟨"b", "Viaje", none, [], PlanStatus.done, 1⟩]).2.2.2.2,
    (grouped_buckets_partition_snapshot.1
      [⟨"a", "Cine", none, [], PlanStatus.idea, 0⟩,
        ⟨"b", "Viaje", none, [], PlanStatus.done, 1⟩]).2.2.2.1
      ⟨"a", "Cine", none, [], PlanStatus.idea, 0⟩ (by decide) PlanStatus.idea⟩

/-- C3 amended: every normalized progress record has at least one populated
sub-record, and a legacy single-mode money document with non-negative
amounts normalizes to the dual shape with both amounts preserved and
currency COP; negative raw amounts are clamped to zero by the code, which
is the one deviation from the claim as stated. -/
theorem normalizeProgress_populated_and_legacy_money
    : (∀ p : Option Goals.RawProgress,
      (Goals.readProgress p).money ≠ none ∨
        (Goals.readProgress p).checklist ≠ none) ∧
    (∀ T C : Int, 0 ≤ T → 0 ≤ C →
      Goals.normalizeProgress
          { mode := some "money", targetAmount := some T,
            currentAmount := some C } =
        { checklist := none,
          money := some
            { currency := "COP", targetAmount := T, currentAmount := C } }) := by
  constructor
  · intro p
    rw [Goals.readProgress, Goals.normalizeProgress]
    by_cases h : (Goals.normalizeProgressCore
        (p.getD {})).money = none ∧
        (Goals.normalizeProgressCore (p.getD {})).checklist = none
    · simp only [h, if_true]
      right
      simp
    · simp only [h, if_false]
      rcases not_and_or.mp h with h' | h'
      · left; exact h'
      · right; exact h'
  · intro T C hT hC
    rw [Goals.normalizeProgress, Goals.normalizeProgressCore]
    simp [Goals.safeNumber, max_eq_right hT, max_eq_right hC]

/-- C3 counterexample: a legacy money document with targetAmount -1 does not
normalize to a money record with targetAmount -1, because the code clamps
the amount with Math.max of 0; data is lost for negative amounts. -/
theorem normalizeProgress_negative_amount_counterexample :
    Goals.normalizeProgress
        { mode := some "money", targetAmount := some (-1),
          currentAmount := some 1000 } ≠
      { checklist := none,
        money := some
          { currency := "COP", targetAmount := -1, currentAmount := 1000 } } := by
  decide

/-- C3 witness: the populated invariant on a missing progress field and the
legacy conversion of the documented example amounts 5000 and 1000. -/
theorem normalizeProgress_populated_and_legacy_money_witness :
    ((Goals.readProgress none).money ≠ none ∨
      (Goals.readProgress none).checklist ≠ none) ∧
    Goals.normalizeProgress
        { mode := some "money", targetAmount := some 5000,
          currentAmount := some 1000 } =
      { checklist := none,
        money := some
          { currency := "COP", targetAmount := 5000, currentAmount := 1000 } } :=
  ⟨normalizeProgress_populated_and_legacy_money.1 none,
    normalizeProgress_populated_and_legacy_money.2 5000 1000 (by decide)
      (by decide)⟩

end WatchApp


namespace WatchApp

lemma mem_cleaned_iff (patch : List (String × Option FsValue)) (k : String)
    (v : FsValue) :
    (k, v) ∈ Plans.cleaned patch ↔ (k, some v) ∈ patch := by
  rw [Plans.cleaned]
  rw [List.mem_filterMap]
  constructor
  · rintro ⟨⟨k', ov⟩, hmem, heq⟩
    cases ov with
    | none => simp at heq
    | some w =>
        simp only [Option.map_some'] at heq
        obtain ⟨rfl, rfl⟩ := Prod.mk.injEq .. ▸ (Option.some.injEq .. ▸ heq)
        exact hmem
  · intro hmem
    exact ⟨(k, some v), hmem, rfl⟩

lemma applyUpdate_cons (d : String → Option FsValue)
    (kv : String × FsValue) (rest : List (String × FsValue)) :
    applyUpdate d (kv :: rest) =
      applyUpdate (fun k0 => if k0 = kv.1 then some kv.2 else d k0) rest :=
  rfl

lemma applyUpdate_not_mem (d : String → Option FsValue)
    (upd : List (String × FsValue)) (k : String)
    (h : ∀ v, (k, v) ∉ upd) : applyUpdate d upd k = d k := by
  induction upd generalizing d with
  | nil => rfl
  | cons kv rest ih =>
      have hk : ¬ k = kv.1 := by
        intro he
        exact h kv.2 (by rw [he]; exact List.mem_cons_self kv rest)
      rw [applyUpdate_cons,
        ih _ (fun v hv => h v (List.mem_cons_of_mem kv hv))]
      simp [hk]

/-- C5: update patches strip undefined entries, so a key is sent exactly
when the patch holds a defined value for it; the backend merge leaves every
unsent key untouched; a patchPlan call leaves every non-audit field that the
patch does not define unchanged; and a watchlist setStatus call writes the
status while leaving the season and episode fields unchanged. -/
theorem updates_strip_undefined_and_preserve_unsent_fields :
    (∀ patch : List (String × Option FsValue), ∀ k v,
      (k, v) ∈ Plans.cleaned patch ↔ (k, some v) ∈ patch) ∧
    (∀ d upd (k : String), (∀ v, (k, v) ∉ upd) → applyUpdate d upd k = d k) ∧
    (∀ patch u d (k : String), (∀ v, (k, some v) ∉ patch) →
      k ∉ ["updatedByUid", "updatedByEmail", "updatedByName", "updatedAt"] →
      applyUpdate d (Plans.patchPlanPayload patch u) k = d k) ∧
    (∀ d st u,
      applyUpdate d (Watchlist.setStatusPayload st u) "status" =
        some (FsValue.str (Watchlist.statusName st)) ∧
      applyUpdate d (Watchlist.setStatusPayload st u) "season" = d "season" ∧
      applyUpdate d (Watchlist.setStatusPayload st u) "episode" =
        d "episode") := by
  refine ⟨mem_cleaned_iff, applyUpdate_not_mem, ?_, ?_⟩
  · intro patch u d k hk haudit
    apply applyUpdate_not_mem
    intro v hv
    rw [Plans.patchPlanPayload, List.mem_append] at hv
    rcases hv with hv | hv
    · exact hk v ((mem_cleaned_iff patch k v).mp hv)
    · simp only [auditFields, List.mem_cons, List.mem_singleton,
        List.not_mem_nil, or_false] at hv
      simp only [List.mem_cons, List.mem_singleton, List.not_mem_nil,
        or_false, not_or] at haudit
      rcases hv with h | h | h | h <;>
        · rw [Prod.ext_iff] at h
          simp_all
  · intro d st u
    refine ⟨?_, ?_, ?_⟩ <;>
      simp [Watchlist.setStatusPayload, auditFields, applyUpdate]

/-- C5 witness: a concrete status switch patch with an undefined season
entry never reaches the stored season field, and a concrete setStatus
payload updates status while leaving season and episode alone. -/
theorem updates_strip_undefined_witness :
    applyUpdate
        (fun k => if k = "season" then some (FsValue.num 3) else none)
        (Plans.patchPlanPayload
          [("status", some (FsValue.str "planned")), ("season", none)]
          ⟨"u1", some "camilo@prueba.com", none⟩) "season" =
      (fun k => if k = "season" then some (FsValue.num 3) else none)
        "season" ∧
    applyUpdate
        (fun k => if k = "season" then some (FsValue.num 3) else none)
        (Watchlist.setStatusPayload WStatus.watching
          ⟨"u1", some "camilo@prueba.com", none⟩) "season" =
      (fun k => if k = "season" then some (FsValue.num 3) else none)
        "season" :=
  ⟨updates_strip_undefined_and_preserve_unsent_fields.2.2.1
      [("status", some (FsValue.str "planned")), ("season", none)]
      ⟨"u1", some "camilo@prueba.com", none⟩ _ "season"
      (fun v => by simp) (by decide),
    (updates_strip_undefined_and_preserve_unsent_fields.2.2.2 _
      WStatus.watching ⟨"u1", some "camilo@prueba.com", none⟩).2.1⟩

end WatchApp


namespace WatchApp

/-- C6: evaluation of the code at the failing input. The username
constructor normalizes to itself and is not one of the two whitelisted
entries, yet the bracket lookup finds the inherited truthy
Object.prototype.constructor, so with a non-empty password onLogin sails
past both local validation checks and reaches the auth-service call instead
of setting a local validation error; the proto accessor name behaves the
same way. The claim (and the spec's zero-network-calls property) is the
clear intent and this prototype-chain leak of the plain object lookup is a
slip in the code. -/
theorem onLogin_constructor_reaches_auth_call :
    Login.normalizeUser "constructor" ≠ "camilo" ∧
    Login.normalizeUser "constructor" ≠ "diana" ∧
    Login.onLogin "constructor" "x" =
      Login.LoginOutcome.authAttempt
        (Login.JsProp.protoMember "constructor") "x" ∧
    Login.onLogin "__proto__" "x" =
      Login.LoginOutcome.authAttempt
        (Login.JsProp.protoMember "__proto__") "x" := by
  decide

/-- C9: the login decision depends only on the trimmed lowercased username,
and any input normalizing to camilo or diana is accepted and mapped to the
corresponding fixed email when the password is non-empty. -/
theorem onLogin_depends_only_on_normalized_username :
    (∀ u1 u2 pass : String, Login.normalizeUser u1 = Login.normalizeUser u2 →
      Login.onLogin u1 pass = Login.onLogin u2 pass) ∧
    (∀ u pass : String, pass ≠ "" →
      (Login.normalizeUser u = "camilo" →
        Login.onLogin u pass =
          Login.LoginOutcome.authAttempt
            (Login.JsProp.str "camilo@prueba.com") pass) ∧
      (Login.normalizeUser u = "diana" →
        Login.onLogin u pass =
          Login.LoginOutcome.authAttempt
            (Login.JsProp.str "diana@prueba.com") pass)) := by
  constructor
  · intro u1 u2 pass h
    rw [Login.onLogin, Login.onLogin, h]
  · intro u pass hp
    constructor
    · intro h
      simp [Login.onLogin, Login.USER_TO_EMAIL, h, hp]
    · intro h
      simp [Login.onLogin, Login.USER_TO_EMAIL, h, hp]

/-- C9 witness: the padded uppercase input CAMILO normalizes to camilo and
logs in with the fixed camilo email. -/
theorem onLogin_depends_only_on_normalized_username_witness :
    Login.onLogin " CAMILO " "x" =
      Login.LoginOutcome.authAttempt
        (Login.JsProp.str "camilo@prueba.com") "x" :=
  (onLogin_depends_only_on_normalized_username.2 " CAMILO " "x"
    (by decide)).1 (by decide)

/-- C8: after each watchlist snapshot, the mirrored items list is the
snapshot reordered into descending createdAt seconds order, with a missing
createdAt treated as zero. -/
theorem watchlist_snapshot_sorted_descending :
    ∀ items : List WatchItem,
      (Watchlist.sortByCreatedDesc items).Pairwise
        (fun a b => Watchlist.createdKey b ≤ Watchlist.createdKey a) ∧
      (Watchlist.sortByCreatedDesc items).Perm items := by
  intro items
  constructor
  · have h := @List.sorted_mergeSort WatchItem
      (fun a b => decide (Watchlist.createdKey b ≤ Watchlist.createdKey a))
      (by intro a b c hab hbc
          simp only [decide_eq_true_eq] at hab hbc ⊢
          omega)
      (by intro a b
          simp only [Bool.or_eq_true, decide_eq_true_eq]
          omega)
      items
    rw [Watchlist.sortByCreatedDesc]
    simpa using h
  · rw [Watchlist.sortByCreatedDesc]
    exact List.mergeSort_perm items _

end WatchApp
